import Mathlib

/-! Verification of the batch image-metadata extraction pipeline
(`utils/processImagesToJson.go` of the `toJson` module).

The Go code is shallowly embedded:
* the filesystem / image decoder is an oracle `Decoder : String → Option (Int × Int × String)`
  giving, for a path that opens and decodes successfully, the decoded image's
  `Bounds().Dx()`, `Bounds().Dy()` and the content-sniffed codec name (which the
  Go code discards with `img, _, err := image.Decode(file)`); `none` models an
  open or decode error;
* Go's `path/filepath` helpers (`Ext`, `Join`/`Clean`, `ToSlash`) and
  `strings` helpers (`ToUpper`, `TrimSuffix`, and trimming a leading ".") are
  translated for a Unix platform, where `filepath.Separator` is the slash;
* the goroutine fan-out over chunks plus the shared result channel is modelled
  by the relation `Shuffle`: the drained result list is any interleaving of the
  per-worker (per-chunk) result sequences;
* `os.ReadDir`, `json.MarshalIndent` and `os.WriteFile` outcomes are fields of
  a `World` record, and `ReadAndForwardWith` returns the Go error outcome
  together with the list of file writes that were performed. -/

namespace GoImg

/-- `os.DirEntry`, restricted to the two methods the code calls:
`Name()` and `IsDir()`. -/
structure DirEntry where
  name : String
  isDir : Bool
deriving DecidableEq

/-- The image-decoding oracle: for each path, `some (Dx, Dy, sniffedFormat)`
if `os.Open` + `image.Decode` succeed there, `none` on an open or decode
error. -/
def Decoder : Type := String → Option (Int × Int × String)

/- ------------------------------------------------------------------
String and path helpers from Go's standard library (`strings`, `path/filepath`),
Unix rules: `filepath.Separator` is the slash character.
------------------------------------------------------------------ -/

/-- `filepath.Separator` on Unix. -/
def pathSeparator : Char := '/'

/-- `filepath.ToSlash`: replace every `Separator` by a slash (the identity on
Unix, where the separator already is the slash). -/
def toSlash (s : String) : String :=
  ⟨s.data.map (fun c => if c = pathSeparator then '/' else c)⟩

/-- `strings.ToUpper` (simple character-wise case mapping). -/
def goToUpper (s : String) : String :=
  ⟨s.data.map Char.toUpper⟩

/-- `strings.TrimSuffix s sfx`: drop `sfx` from the end of `s` when present. -/
def trimSuffix (s sfx : String) : String :=
  if sfx.data.isSuffixOf s.data then ⟨s.data.take (s.data.length - sfx.data.length)⟩ else s

/-- `strings.TrimPrefix s pre`: drop `pre` from the start of `s` when present
(the code only calls it with a dot as the second argument). -/
def trimLeading (s pre : String) : String :=
  if pre.data.isPrefixOf s.data then ⟨s.data.drop pre.data.length⟩ else s

/-- Helper for `filepath.Ext`: walk the path from its last character towards
the front, accumulating the scanned suffix; stop at a separator (no extension)
or at a dot (the extension starts there, dot included). -/
def extFrom : List Char → List Char → List Char
  | [], _ => []
  | c :: rest, acc =>
    if c = '/' then []
    else if c = '.' then '.' :: acc
    else extFrom rest (c :: acc)

/-- `filepath.Ext`: the suffix beginning at the final dot in the final
slash-separated element of the path; empty if there is no dot. -/
def filepathExt (path : String) : String :=
  ⟨extFrom path.data.reverse []⟩

/-- The index search of `lazybuf`'s backtracking step in `filepath.Clean`:
starting from `w`, decrement while `w > dotdot` and the buffer's character at
`w` is not a slash; structural in `w`. -/
def btW (out : List Char) (dotdot : Nat) : Nat → Nat
  | 0 => 0
  | w + 1 =>
    if dotdot < w + 1 ∧ ¬ out.get? (w + 1) = some ('/') then btW out dotdot w
    else w + 1

/-- The `..` backtracking step of `filepath.Clean`: drop the last path element
of the output buffer (the write index first steps back once, then keeps
stepping back over non-slash characters while above `dotdot`). -/
def backtrack (out : List Char) (dotdot : Nat) : List Char :=
  out.take (btW out dotdot (out.length - 1))

/-- The main loop of `filepath.Clean` (Unix), with the read index expressed as
the remaining input; `fuel ≥` the remaining input length keeps the recursion
structural (every branch consumes at least one input character). -/
def cleanLoop (rooted : Bool) : Nat → List Char → List Char → Nat → List Char
  | 0, _, out, _ => out
  | _ + 1, [], out, _ => out
  | fuel + 1, c :: rest, out, dotdot =>
    if c = '/' then
      cleanLoop rooted fuel rest out dotdot
    else if c = '.' ∧ (rest = [] ∨ rest.head? = some ('/')) then
      cleanLoop rooted fuel rest out dotdot
    else if c = '.' ∧ rest.head? = some ('.') ∧ (rest.tail = [] ∨ rest.tail.head? = some ('/')) then
      (if dotdot < out.length then
        cleanLoop rooted fuel rest.tail (backtrack out dotdot) dotdot
      else if rooted = false then
        (let out2 := (if 0 < out.length then out ++ [('/')] else out) ++ [('.'), ('.')]
        cleanLoop rooted fuel rest.tail out2 out2.length)
      else
        cleanLoop rooted fuel rest.tail out dotdot)
    else
      (let out2 := if (rooted = true ∧ ¬ out.length = 1) ∨ (rooted = false ∧ ¬ out.length = 0)
        then out ++ [('/')] else out
      cleanLoop rooted fuel (rest.dropWhile (fun ch => ¬ ch = '/'))
        (out2 ++ (c :: rest.takeWhile (fun ch => ¬ ch = '/'))) dotdot)

/-- `filepath.Clean` on Unix (`FromSlash` there is the identity). -/
def goClean (path : String) : String :=
  if path = ("") then (".")
  else
    let cs := path.data
    let rooted : Bool := cs.head? == some ('/')
    let out := cleanLoop rooted cs.length (if rooted then cs.tail else cs)
      (if rooted then [('/')] else []) (if rooted then 1 else 0)
    if out.length = 0 then (".") else ⟨out⟩

/-- `filepath.Join` for the two-argument call sites of the code: join the
non-empty elements with the separator and `Clean` the result. -/
def filepathJoin (a b : String) : String :=
  if ¬ a = ("") then goClean (a ++ ("/") ++ b)
  else if ¬ b = ("") then goClean b
  else ("")

/- ------------------------------------------------------------------
Data model: the JSON schema types of `processImagesToJson.go`.
------------------------------------------------------------------ -/

/-- `Resolution` object within a flyer. -/
structure Resolution where
  Width : Int
  Height : Int
  Unit : String
deriving DecidableEq

/-- `Design` object within a flyer (`Type'` renders Go's `Type` field, whose
name is reserved in Lean). -/
structure Design where
  TemplateID : String
  Resolution : Resolution
  Type' : String
  Tags : List String
  FileFormat : String
  Orientation : String
deriving DecidableEq

/-- `Flyer`: one processed image. -/
structure Flyer where
  ID : String
  Design : Design
  Language : String
  URL : String
deriving DecidableEq

/-- `Schema` object within the metadata. -/
structure Schema where
  Format : String
  Encoding : String
  Filetype : String
deriving DecidableEq

/-- `Metadata`: the summary document. -/
structure Metadata where
  Version : String
  LastUpdated : String
  TotalFlyers : Int
  URL : String
  Schema : Schema
deriving DecidableEq

/-- `FlyersData`: the catalog document, `{ "Flyers": [...] }`. -/
structure FlyersData where
  Flyers : List Flyer
deriving DecidableEq

/- ------------------------------------------------------------------
The Image Inspector: `getImageResolutionAndOrientation`.
------------------------------------------------------------------ -/

/-- `getImageResolutionAndOrientation`: open and decode the image (the oracle);
on success return width, height, the extension-derived format label (uppercase,
with a lone `JPG` rewritten to `JPEG`) and the orientation (`landscape` exactly
when width > height, otherwise `portrait`).  The sniffed codec name returned by
`image.Decode` is discarded, as in the Go code's blank identifier. -/
def getImageResolutionAndOrientation (fs : Decoder) (imagePath : String) :
    Option (Int × Int × String × String) :=
  match fs imagePath with
  | none => none
  | some (width, height, _) =>
    let fileExt0 := goToUpper (trimLeading (filepathExt imagePath) ("."))
    let fileExt := if fileExt0 = ("JPG") then ("JPEG") else fileExt0
    let orientation := if width > height then ("landscape") else ("portrait")
    some (width, height, fileExt, orientation)

/- ------------------------------------------------------------------
Workers: `processBatch`.
------------------------------------------------------------------ -/

/-- The body of `processBatch`'s loop for one directory entry: directories are
skipped (no result, no log); a failed inspection logs and produces no result;
a successful inspection emits exactly one `Flyer`.  The first component is what
the worker pushes on the results channel, the second what it prints. -/
def processEntry (fs : Decoder) (imageFolder : String) (file : DirEntry) :
    List Flyer × List String :=
  if file.isDir then ([], [])
  else
    let imagePath := filepathJoin imageFolder file.name
    match getImageResolutionAndOrientation fs imagePath with
    | none => ([], [("Error processing image ") ++ file.name])
    | some (width, height, fileExt, orientation) =>
      ([{ ID := trimSuffix file.name (filepathExt file.name)
          Design :=
            { TemplateID := ("template1")
              Resolution := { Width := width, Height := height, Unit := ("px") }
              Type' := ("image")
              Tags := [("")]
              FileFormat := fileExt
              Orientation := orientation }
          Language := ("en-US")
          URL := toSlash imagePath }], [])

/-- `processBatch`: one worker runs its chunk strictly sequentially, pushing
each produced `Flyer` onto the channel in order (first component) and printing
each per-file error (second component).  `folderURL` is received but never
used, exactly as in the Go function. -/
def processBatch (fs : Decoder) (files : List DirEntry) (imageFolder folderURL : String) :
    List Flyer × List String :=
  ((files.map (fun f => (processEntry fs imageFolder f).1)).flatten,
   (files.map (fun f => (processEntry fs imageFolder f).2)).flatten)

/- ------------------------------------------------------------------
The Batch Scheduler: `BatchProcess`.
------------------------------------------------------------------ -/

/-- The chunking loop of `BatchProcess`
(`for i := 0; i < len(files); i += batchSize`): slice `files[i : min (i+b) n]`
per iteration.  Structural in a fuel argument; `fuel ≥ files.length` together
with `1 ≤ b` makes the fuel irrelevant (each step drops at least one element).
A zero batch size makes the Go loop diverge; the model is only used at
`1 ≤ b`. -/
def goChunksAux (b : Nat) : Nat → List DirEntry → List (List DirEntry)
  | _, [] => []
  | 0, _ :: _ => []
  | fuel + 1, f :: rest => (f :: rest).take b :: goChunksAux b fuel ((f :: rest).drop b)

/-- The chunk list `BatchProcess` dispatches one goroutine (worker) for. -/
def goChunks (b : Nat) (files : List DirEntry) : List (List DirEntry) :=
  goChunksAux b files.length files

/-- The per-worker result sequences of a `BatchProcess` run: one list of
produced `Flyer`s per chunk, in chunk order. -/
def workerOutputs (fs : Decoder) (files : List DirEntry) (imageFolder folderURL : String)
    (batchSize : Nat) : List (List Flyer) :=
  (goChunks batchSize files).map (fun chunk => (processBatch fs chunk imageFolder folderURL).1)

/-- `Shuffle ls out`: `out` is a complete interleaving of the sequences `ls` —
each step removes the head of one of the sequences and emits it; a finished
(empty) sequence can be retired.  This is exactly the set of orders in which
the workers' channel sends can be drained. -/
inductive Shuffle {α : Type} : List (List α) → List α → Prop where
  | nil : Shuffle [] []
  | skip {ls : List (List α)} {out : List α} :
      Shuffle ls out → Shuffle ([] :: ls) out
  | pick {ls : List (List α)} {out : List α} (i : Nat) (x : α) (c : List α) :
      ls[i]? = some (x :: c) → Shuffle (ls.set i c) out → Shuffle ls (x :: out)

/-- The set of flyer lists a `BatchProcess` invocation can return: every
complete interleaving of the workers' outputs. -/
def BatchOutputs (fs : Decoder) (files : List DirEntry) (imageFolder folderURL : String)
    (batchSize : Nat) (out : List Flyer) : Prop :=
  Shuffle (workerOutputs fs files imageFolder folderURL batchSize) out

/-- One canonical schedule of `BatchProcess` (workers drained in chunk order);
used as an executable representative of `BatchOutputs`. -/
def BatchProcessFlyers (fs : Decoder) (files : List DirEntry) (imageFolder folderURL : String)
    (batchSize : Nat) : List Flyer :=
  (workerOutputs fs files imageFolder folderURL batchSize).flatten

/-- The error component of `BatchProcess`'s return: the function ends in
`return flyers, nil`, so it is `none` for every input. -/
def BatchProcessErr (fs : Decoder) (files : List DirEntry) (imageFolder folderURL : String)
    (batchSize : Nat) : Option String :=
  none

/- ------------------------------------------------------------------
Orchestration: `ReadAndForward`.
------------------------------------------------------------------ -/

/-- The outcomes of the effectful collaborators of one `ReadAndForward`
invocation: the directory listing, the decoder, the clock, and the outcomes of
the two `json.MarshalIndent` and two `os.WriteFile` calls. -/
structure World where
  readDirRes : Option (List DirEntry)
  decode : Decoder
  now : String
  marshalFlyersOk : Bool
  marshalMetaOk : Bool
  writeFlyersOk : Bool
  writeMetaOk : Bool

/-- The error cases `ReadAndForward` can return, in source order. -/
inductive RFError where
  | errReadDir
  | errProcessing
  | errEncodeFlyers
  | errEncodeMeta
  | errWriteFlyers
  | errWriteMeta
deriving DecidableEq

/-- A document handed to `os.WriteFile`. -/
inductive OutDoc where
  | flyersDoc (d : FlyersData)
  | metaDoc (m : Metadata)
deriving DecidableEq

/-- One performed `os.WriteFile` call: target path and content. -/
structure WriteEvent where
  path : String
  content : OutDoc
deriving DecidableEq

/-- The `Metadata` value `ReadAndForward` constructs from the collected
flyers. -/
def mkMetadata (folderURL now : String) (flyers : List Flyer) : Metadata :=
  { Version := ("1.0")
    LastUpdated := now
    TotalFlyers := (flyers.length : Int)
    URL := folderURL
    Schema := { Format := ("JSON"), Encoding := ("UTF-8"), Filetype := ("text") } }

/-- The catalog document `ReadAndForward` constructs. -/
def mkFlyersData (flyers : List Flyer) : FlyersData :=
  { Flyers := flyers }

/-- `ReadAndForward`, parametrised by the world `w` and by the flyer list
`flyers` that the (nondeterministic) `BatchProcess` call returned; gives the
returned error outcome together with the file writes that were performed, in
order.  A failed write performs no write event (the single complete-buffer
write is atomic at this granularity). -/
def ReadAndForwardWith (w : World) (imageFolder folderURL : String) (batchSize : Nat)
    (flyers : List Flyer) : Except RFError Unit × List WriteEvent :=
  match w.readDirRes with
  | none => (Except.error RFError.errReadDir, [])
  | some files =>
    match BatchProcessErr w.decode files imageFolder folderURL batchSize with
    | some _ => (Except.error RFError.errProcessing, [])
    | none =>
      let metadata := mkMetadata folderURL w.now flyers
      let flyersData := mkFlyersData flyers
      if ¬ w.marshalFlyersOk then (Except.error RFError.errEncodeFlyers, [])
      else if ¬ w.marshalMetaOk then (Except.error RFError.errEncodeMeta, [])
      else if ¬ w.writeFlyersOk then (Except.error RFError.errWriteFlyers, [])
      else if ¬ w.writeMetaOk then
        (Except.error RFError.errWriteMeta,
         [{ path := ("flyers.json"), content := OutDoc.flyersDoc flyersData }])
      else
        (Except.ok (),
         [{ path := ("flyers.json"), content := OutDoc.flyersDoc flyersData },
          { path := ("imagesMetadata.json"), content := OutDoc.metaDoc metadata }])

/- ------------------------------------------------------------------
JSON serialization model (`encoding/json` on the schema types): marshaling
maps a value to a JSON tree with the struct-tag keys; unmarshaling looks the
keys up again and requires the matching shape, as `json.Unmarshal` does when
decoding into the same struct type.
------------------------------------------------------------------ -/

/-- JSON values (tree level; text-level printing and parsing are inverse on
trees and are not modelled). -/
inductive JsonVal where
  | null
  | str (s : String)
  | num (n : Int)
  | arr (xs : List JsonVal)
  | obj (fields : List (String × JsonVal))

/-- Key lookup in a JSON object (first match; marshaled objects have unique
keys). -/
def jLookup : List (String × JsonVal) → String → Option JsonVal
  | [], _ => none
  | (k, v) :: rest, key => if k = key then some v else jLookup rest key

/-- Decode a JSON string into a Go `string` field. -/
def asStr : JsonVal → Option String
  | JsonVal.str s => some s
  | _ => none

/-- Decode a JSON number into a Go `int` field. -/
def asInt : JsonVal → Option Int
  | JsonVal.num n => some n
  | _ => none

/-- Decode a JSON array of strings into a Go `[]string` field. -/
def asStrList : List JsonVal → Option (List String)
  | [] => some []
  | j :: rest =>
    match asStr j, asStrList rest with
    | some s, some l => some (s :: l)
    | _, _ => none

/-- Marshal a `Resolution` with its struct-tag keys. -/
def marshalResolution (r : Resolution) : JsonVal :=
  JsonVal.obj [(("width"), JsonVal.num r.Width), (("height"), JsonVal.num r.Height),
    (("unit"), JsonVal.str r.Unit)]

/-- Unmarshal a `Resolution`. -/
def unmarshalResolution : JsonVal → Option Resolution
  | JsonVal.obj fields =>
    (match jLookup fields ("width"), jLookup fields ("height"), jLookup fields ("unit") with
     | some jw, some jh, some ju =>
       (match asInt jw, asInt jh, asStr ju with
        | some w, some h, some u => some { Width := w, Height := h, Unit := u }
        | _, _, _ => none)
     | _, _, _ => none)
  | _ => none

/-- Marshal a `Design` with its struct-tag keys. -/
def marshalDesign (d : Design) : JsonVal :=
  JsonVal.obj [(("templateId"), JsonVal.str d.TemplateID),
    (("resolution"), marshalResolution d.Resolution),
    (("type"), JsonVal.str d.Type'),
    (("tags"), JsonVal.arr (d.Tags.map JsonVal.str)),
    (("fileFormat"), JsonVal.str d.FileFormat),
    (("orientation"), JsonVal.str d.Orientation)]

/-- Unmarshal a `Design`. -/
def unmarshalDesign : JsonVal → Option Design
  | JsonVal.obj fields =>
    (match jLookup fields ("templateId"), jLookup fields ("resolution"),
           jLookup fields ("type"), jLookup fields ("tags"),
           jLookup fields ("fileFormat"), jLookup fields ("orientation") with
     | some jt, some jr, some jy, some jg, some jf, some jo =>
       (match asStr jt, unmarshalResolution jr, asStr jy, jg, asStr jf, asStr jo with
        | some t, some r, some y, JsonVal.arr tg, some f, some o =>
          (match asStrList tg with
           | some tags =>
             some { TemplateID := t, Resolution := r, Type' := y, Tags := tags,
                    FileFormat := f, Orientation := o }
           | none => none)
        | _, _, _, _, _, _ => none)
     | _, _, _, _, _, _ => none)
  | _ => none

/-- Marshal a `Flyer` with its struct-tag keys. -/
def marshalFlyer (f : Flyer) : JsonVal :=
  JsonVal.obj [(("id"), JsonVal.str f.ID), (("design"), marshalDesign f.Design),
    (("lang"), JsonVal.str f.Language), (("url"), JsonVal.str f.URL)]

/-- Unmarshal a `Flyer`. -/
def unmarshalFlyer : JsonVal → Option Flyer
  | JsonVal.obj fields =>
    (match jLookup fields ("id"), jLookup fields ("design"),
           jLookup fields ("lang"), jLookup fields ("url") with
     | some ji, some jd, some jl, some ju =>
       (match asStr ji, unmarshalDesign jd, asStr jl, asStr ju with
        | some i, some d, some l, some u =>
          some { ID := i, Design := d, Language := l, URL := u }
        | _, _, _, _ => none)
     | _, _, _, _ => none)
  | _ => none

/-- Marshal a `Schema` with its struct-tag keys. -/
def marshalSchema (s : Schema) : JsonVal :=
  JsonVal.obj [(("format"), JsonVal.str s.Format), (("encoding"), JsonVal.str s.Encoding),
    (("filetype"), JsonVal.str s.Filetype)]

/-- Unmarshal a `Schema`. -/
def unmarshalSchema : JsonVal → Option Schema
  | JsonVal.obj fields =>
    (match jLookup fields ("format"), jLookup fields ("encoding"), jLookup fields ("filetype") with
     | some jf, some je, some jt =>
       (match asStr jf, asStr je, asStr jt with
        | some f, some e, some t => some { Format := f, Encoding := e, Filetype := t }
        | _, _, _ => none)
     | _, _, _ => none)
  | _ => none

/-- Marshal a `Metadata` with its struct-tag keys. -/
def marshalMetadata (m : Metadata) : JsonVal :=
  JsonVal.obj [(("version"), JsonVal.str m.Version), (("lastUpdated"), JsonVal.str m.LastUpdated),
    (("totalFlyers"), JsonVal.num m.TotalFlyers), (("url"), JsonVal.str m.URL),
    (("schema"), marshalSchema m.Schema)]

/-- Unmarshal a `Metadata`. -/
def unmarshalMetadata : JsonVal → Option Metadata
  | JsonVal.obj fields =>
    (match jLookup fields ("version"), jLookup fields ("lastUpdated"),
           jLookup fields ("totalFlyers"), jLookup fields ("url"),
           jLookup fields ("schema") with
     | some jv, some jl, some jt, some ju, some js =>
       (match asStr jv, asStr jl, asInt jt, asStr ju, unmarshalSchema js with
        | some v, some l, some t, some u, some s =>
          some { Version := v, LastUpdated := l, TotalFlyers := t, URL := u, Schema := s }
        | _, _, _, _, _ => none)
     | _, _, _, _, _ => none)
  | _ => none

/-- The format label as the specification words it, for the refinement claim
about `fileFormat`: the file path's extension with its leading dot removed,
uppercased, and `JPG` replaced by `JPEG`. -/
def specFormatLabel (path : String) : String :=
  let e := goToUpper (trimLeading (filepathExt path) ("."))
  if e = ("JPG") then ("JPEG") else e

/- ------------------------------------------------------------------
Concrete fixtures for the witness theorems.
------------------------------------------------------------------ -/

/-- A decoder with two decodable images under `images` and nothing else:
`a.jpg` is 4×3 (sniffed as png despite the name), `b.jpg` is 2×5. -/
def fsW : Decoder := fun p =>
  if p = ("images/a.jpg") then some (4, 3, ("png"))
  else if p = ("images/b.jpg") then some (2, 5, ("jpeg"))
  else if p = ("images/sq.png") then some (7, 7, ("png"))
  else none

/-- A directory listing with two good images, one undecodable file and one
subdirectory. -/
def filesW : List DirEntry :=
  [{ name := ("a.jpg"), isDir := false }, { name := ("b.jpg"), isDir := false },
   { name := ("bad.txt"), isDir := false }, { name := ("sub"), isDir := true }]

/-- A five-file listing for the chunking witness. -/
def filesW5 : List DirEntry :=
  [{ name := ("f1"), isDir := false }, { name := ("f2"), isDir := false },
   { name := ("f3"), isDir := false }, { name := ("f4"), isDir := false },
   { name := ("f5"), isDir := false }]

/-- A single-file listing. -/
def filesW1 : List DirEntry := [{ name := ("a.jpg"), isDir := false }]

/-- The entry produced for `images/a.jpg` under `fsW`. -/
def flW : Flyer :=
  { ID := ("a")
    Design :=
      { TemplateID := ("template1")
        Resolution := { Width := 4, Height := 3, Unit := ("px") }
        Type' := ("image")
        Tags := [("")]
        FileFormat := ("JPEG")
        Orientation := ("landscape") }
    Language := ("en-US")
    URL := ("images/a.jpg") }

/-- A world whose directory listing succeeds but whose first write fails. -/
def wW : World :=
  { readDirRes := some filesW, decode := fsW, now := ("2026-01-01T00:00:00Z")
    marshalFlyersOk := true, marshalMetaOk := true
    writeFlyersOk := false, writeMetaOk := true }

/-- A world whose directory listing fails. -/
def wBad : World :=
  { readDirRes := none, decode := fsW, now := ("2026-01-01T00:00:00Z")
    marshalFlyersOk := true, marshalMetaOk := true
    writeFlyersOk := true, writeMetaOk := true }

/- ------------------------------------------------------------------
Helper lemmas: interleavings.
------------------------------------------------------------------ -/

/-- Removing the head `x` of the `i`-th sequence permutes the flattening onto
`x` followed by the flattening of the rest. -/
theorem flatten_pick {α : Type} :
    ∀ (ls : List (List α)) (i : Nat) (x : α) (c : List α),
      ls[i]? = some (x :: c) → List.Perm ls.flatten (x :: (ls.set i c).flatten) := by
  intro ls
  induction ls with
  | nil => intro i x c h; simp at h
  | cons hd tl ih =>
    intro i x c h
    cases i with
    | zero =>
      have hhd : hd = x :: c := by simpa using h
      subst hhd
      simp
    | succ n =>
      have h' : tl[n]? = some (x :: c) := by simpa using h
      have hperm := ih n x c h'
      have h1 : List.Perm (hd ++ tl.flatten) (hd ++ (x :: (tl.set n c).flatten)) :=
        hperm.append_left hd
      have h2 : List.Perm (hd ++ (x :: (tl.set n c).flatten)) (x :: (hd ++ (tl.set n c).flatten)) :=
        List.perm_middle
      simpa using h1.trans h2

/-- Every complete interleaving of the sequences `ls` is a permutation of
their concatenation. -/
theorem shuffle_perm {α : Type} {ls : List (List α)} {out : List α}
    (h : Shuffle ls out) : List.Perm out ls.flatten := by
  induction h with
  | nil => exact List.Perm.refl _
  | skip _ ih => simpa using ih
  | pick i x c hget _ ih =>
    exact (ih.cons x).trans (flatten_pick _ i x c hget).symm

/-- The in-order drain is one possible interleaving. -/
theorem shuffle_flatten {α : Type} : ∀ (ls : List (List α)), Shuffle ls ls.flatten := by
  intro ls
  induction ls with
  | nil => exact Shuffle.nil
  | cons hd tl ih =>
    induction hd with
    | nil => simpa using Shuffle.skip ih
    | cons x xs ihx =>
      have hget : ((x :: xs) :: tl)[0]? = some (x :: xs) := by simp
      have hrest : Shuffle (((x :: xs) :: tl).set 0 xs) (xs ++ tl.flatten) := by
        simpa using ihx
      simpa using Shuffle.pick 0 x xs hget hrest

/- ------------------------------------------------------------------
Helper lemmas: the chunking loop.
------------------------------------------------------------------ -/

theorem goChunksAux_flatten {b : Nat} (hb : 1 ≤ b) :
    ∀ (fuel : Nat) (l : List DirEntry), l.length ≤ fuel →
      (goChunksAux b fuel l).flatten = l := by
  intro fuel
  induction fuel with
  | zero =>
    intro l hl
    cases l with
    | nil => rfl
    | cons f rest => simp at hl
  | succ k ih =>
    intro l hl
    cases l with
    | nil => rfl
    | cons f rest =>
      have hdrop : ((f :: rest).drop b).length ≤ k := by
        rw [List.length_drop]
        simp only [List.length_cons] at hl ⊢
        omega
      calc (goChunksAux b (k + 1) (f :: rest)).flatten
          = (f :: rest).take b ++ (goChunksAux b k ((f :: rest).drop b)).flatten := by
            simp [goChunksAux]
        _ = (f :: rest).take b ++ (f :: rest).drop b := by rw [ih _ hdrop]
        _ = f :: rest := List.take_append_drop b (f :: rest)

theorem goChunksAux_count {b : Nat} (hb : 1 ≤ b) :
    ∀ (fuel : Nat) (l : List DirEntry), l.length ≤ fuel →
      (goChunksAux b fuel l).length = (l.length + b - 1) / b := by
  intro fuel
  induction fuel with
  | zero =>
    intro l hl
    cases l with
    | nil =>
      have h0 : (b - 1) / b = 0 := Nat.div_eq_of_lt (by omega)
      simpa [goChunksAux] using h0.symm
    | cons f rest => simp at hl
  | succ k ih =>
    intro l hl
    cases l with
    | nil =>
      have h0 : (b - 1) / b = 0 := Nat.div_eq_of_lt (by omega)
      simpa [goChunksAux] using h0.symm
    | cons f rest =>
      have hdrop : ((f :: rest).drop b).length ≤ k := by
        rw [List.length_drop]
        simp only [List.length_cons] at hl ⊢
        omega
      have hstep : (goChunksAux b (k + 1) (f :: rest)).length
          = 1 + (goChunksAux b k ((f :: rest).drop b)).length := by
        simp only [goChunksAux, List.length_cons]
        omega
      rw [hstep, ih _ hdrop]
      have hn : (f :: rest).length = rest.length + 1 := by simp
      rw [List.length_drop, hn]
      rcases Nat.lt_or_ge (rest.length + 1) b with hlt | hge
      · have h1 : rest.length + 1 - b = 0 := by omega
        rw [h1]
        have h2 : (0 + b - 1) / b = 0 := Nat.div_eq_of_lt (by omega)
        have h3 : rest.length + 1 + b - 1 = rest.length + b := by omega
        rw [h2, h3]
        have h4 : (rest.length + b) / b = rest.length / b + 1 := Nat.add_div_right _ hb
        rw [h4]
        have h5 : rest.length / b = 0 := Nat.div_eq_of_lt (by omega)
        omega
      · have h1 : rest.length + 1 - b + b - 1 = rest.length + 1 - 1 := by omega
        have h2 : rest.length + 1 + b - 1 = (rest.length + 1 - 1) + b := by omega
        rw [h1, h2, Nat.add_div_right _ hb]
        omega

theorem goChunksAux_ne_nil {b : Nat} {fuel : Nat} {l : List DirEntry}
    (hl : l.length ≤ fuel) (hne : l ≠ []) : goChunksAux b fuel l ≠ [] := by
  cases l with
  | nil => exact absurd rfl hne
  | cons f rest =>
    cases fuel with
    | zero => simp at hl
    | succ k => simp [goChunksAux]

theorem goChunksAux_mem_le {b : Nat} (hb : 1 ≤ b) :
    ∀ (fuel : Nat) (l : List DirEntry), l.length ≤ fuel →
      ∀ c ∈ goChunksAux b fuel l, c.length ≤ b ∧ c ≠ [] := by
  intro fuel
  induction fuel with
  | zero =>
    intro l hl c hc
    cases l with
    | nil => simp [goChunksAux] at hc
    | cons f rest => simp at hl
  | succ k ih =>
    intro l hl c hc
    cases l with
    | nil => simp [goChunksAux] at hc
    | cons f rest =>
      have hdrop : ((f :: rest).drop b).length ≤ k := by
        rw [List.length_drop]
        simp only [List.length_cons] at hl ⊢
        omega
      simp only [goChunksAux, List.mem_cons] at hc
      rcases hc with hc | hc
      · subst hc
        constructor
        · simp
        · have : 0 < b := hb
          cases b with
          | zero => omega
          | succ m => simp [List.take]
      · exact ih _ hdrop c hc

theorem goChunksAux_dropLast {b : Nat} (hb : 1 ≤ b) :
    ∀ (fuel : Nat) (l : List DirEntry), l.length ≤ fuel →
      ∀ c ∈ (goChunksAux b fuel l).dropLast, c.length = b := by
  intro fuel
  induction fuel with
  | zero =>
    intro l hl c hc
    cases l with
    | nil => simp [goChunksAux] at hc
    | cons f rest => simp at hl
  | succ k ih =>
    intro l hl c hc
    cases l with
    | nil => simp [goChunksAux] at hc
    | cons f rest =>
      have hdrop : ((f :: rest).drop b).length ≤ k := by
        rw [List.length_drop]
        simp only [List.length_cons] at hl ⊢
        omega
      simp only [goChunksAux] at hc
      rcases hd : goChunksAux b k ((f :: rest).drop b) with _ | ⟨r, rs⟩
      · rw [hd] at hc
        simp at hc
      · rw [hd] at hc
        rw [List.dropLast_cons₂] at hc
        rcases List.mem_cons.mp hc with hc1 | hc2
        · subst hc1
          have hne : (f :: rest).drop b ≠ [] := by
            intro hnil
            rw [hnil] at hd
            simp [goChunksAux] at hd
          have hblt : b < (f :: rest).length := by
            by_contra hle
            exact hne (List.drop_eq_nil_iff.mpr (by omega))
          rw [List.length_take]
          omega
        · have := ih _ hdrop c
          rw [hd] at this
          exact this hc2

/-- The four structural facts of the chunk partition, at adequate fuel
(`goChunks` instantiates `fuel := l.length`). -/
theorem goChunks_spec {b : Nat} (hb : 1 ≤ b) (files : List DirEntry) :
    (goChunks b files).flatten = files ∧
    (goChunks b files).length = (files.length + b - 1) / b ∧
    (∀ c ∈ (goChunks b files).dropLast, c.length = b) ∧
    (∀ c ∈ goChunks b files, c.length ≤ b ∧ c ≠ []) := by
  refine ⟨goChunksAux_flatten hb _ _ le_rfl, goChunksAux_count hb _ _ le_rfl,
    goChunksAux_dropLast hb _ _ le_rfl, goChunksAux_mem_le hb _ _ le_rfl⟩

/- ------------------------------------------------------------------
Helper lemmas: workers and the canonical schedule.
------------------------------------------------------------------ -/

theorem processBatch_append (fs : Decoder) (imageFolder folderURL : String)
    (l1 l2 : List DirEntry) :
    (processBatch fs (l1 ++ l2) imageFolder folderURL).1
      = (processBatch fs l1 imageFolder folderURL).1
        ++ (processBatch fs l2 imageFolder folderURL).1 := by
  simp [processBatch]

theorem processBatch_chunks (fs : Decoder) (imageFolder folderURL : String) :
    ∀ (ls : List (List DirEntry)),
      (ls.map (fun c => (processBatch fs c imageFolder folderURL).1)).flatten
        = (processBatch fs ls.flatten imageFolder folderURL).1 := by
  intro ls
  induction ls with
  | nil => simp [processBatch]
  | cons hd tl ih =>
    simp only [List.map_cons, List.flatten_cons, ih, processBatch_append]

/-- The canonical schedule of `BatchProcess` coincides with running the whole
listing through one worker. -/
theorem batchProcessFlyers_eq (fs : Decoder) (files : List DirEntry)
    (imageFolder folderURL : String) {b : Nat} (hb : 1 ≤ b) :
    BatchProcessFlyers fs files imageFolder folderURL b
      = (processBatch fs files imageFolder folderURL).1 := by
  unfold BatchProcessFlyers workerOutputs
  rw [processBatch_chunks]
  rw [(goChunks_spec hb files).1]

/-- The canonical schedule is a possible `BatchProcess` outcome. -/
theorem batchOutputs_canonical (fs : Decoder) (files : List DirEntry)
    (imageFolder folderURL : String) (b : Nat) :
    BatchOutputs fs files imageFolder folderURL b
      (BatchProcessFlyers fs files imageFolder folderURL b) :=
  shuffle_flatten _

/-- Every possible `BatchProcess` outcome is a permutation of the one-worker
run over the whole listing. -/
theorem batchOutputs_perm (fs : Decoder) (files : List DirEntry)
    (imageFolder folderURL : String) {b : Nat} (hb : 1 ≤ b) {out : List Flyer}
    (h : BatchOutputs fs files imageFolder folderURL b out) :
    List.Perm out (processBatch fs files imageFolder folderURL).1 := by
  have := shuffle_perm h
  rwa [show (workerOutputs fs files imageFolder folderURL b).flatten
      = (processBatch fs files imageFolder folderURL).1 from
    batchProcessFlyers_eq fs files imageFolder folderURL hb] at this

/-- Provenance of an emitted entry: it comes from a non-directory listing
entry whose inspection succeeded, and its fields are the ones `processBatch`
builds for that entry. -/
theorem mem_processBatch (fs : Decoder) (imageFolder folderURL : String)
    {files : List DirEntry} {fl : Flyer}
    (h : fl ∈ (processBatch fs files imageFolder folderURL).1) :
    ∃ f ∈ files, f.isDir = false ∧
      ∃ w ht lbl ori, getImageResolutionAndOrientation fs (filepathJoin imageFolder f.name)
          = some (w, ht, lbl, ori) ∧
        fl = { ID := trimSuffix f.name (filepathExt f.name)
               Design :=
                 { TemplateID := ("template1")
                   Resolution := { Width := w, Height := ht, Unit := ("px") }
                   Type' := ("image")
                   Tags := [("")]
                   FileFormat := lbl
                   Orientation := ori }
               Language := ("en-US")
               URL := toSlash (filepathJoin imageFolder f.name) } := by
  simp only [processBatch, List.mem_flatten, List.mem_map] at h
  obtain ⟨l, ⟨f, hf, hl⟩, hfl⟩ := h
  subst hl
  refine ⟨f, hf, ?_⟩
  by_cases hdir : f.isDir
  · simp [processEntry, hdir] at hfl
  · rcases hres : getImageResolutionAndOrientation fs (filepathJoin imageFolder f.name)
      with _ | ⟨w, ht, lbl, ori⟩
    · simp [processEntry, hdir, hres] at hfl
    · simp only [processEntry, hdir, hres, if_neg, Bool.false_eq_true, not_false_iff,
        ite_false, List.mem_singleton] at hfl
      exact ⟨by simpa using hdir, w, ht, lbl, ori, rfl, hfl⟩

/-- A successful inspection presupposes a successful decode of the same
dimensions. -/
theorem getImage_some_decode {fs : Decoder} {p : String} {w ht : Int} {lbl ori : String}
    (h : getImageResolutionAndOrientation fs p = some (w, ht, lbl, ori)) :
    ∃ s, fs p = some (w, ht, s) := by
  rcases hfs : fs p with _ | ⟨a, b2, s⟩
  · simp [getImageResolutionAndOrientation, hfs] at h
  · refine ⟨s, ?_⟩
    simp only [getImageResolutionAndOrientation, hfs, Option.some.injEq, Prod.mk.injEq] at h
    rw [h.1, h.2.1]

/-- Unmarshaling a marshaled string list recovers it. -/
theorem asStrList_map_str : ∀ l : List String, asStrList (l.map JsonVal.str) = some l := by
  intro l
  induction l with
  | nil => rfl
  | cons s rest ih => simp [asStrList, asStr, ih]

/- ------------------------------------------------------------------
The claims.
------------------------------------------------------------------ -/

/-- C1: for every invocation of `ReadAndForward` that reaches metadata
construction (the directory listing succeeded and `BatchProcess` returned the
collected flyers), the summary's `totalFlyers` equals the length of the
`Flyers` list of the catalog document built in the same invocation, for every
listing and every batch size ≥ 1. -/
theorem C1_totalFlyers_matches_catalog (w : World) (imageFolder folderURL : String)
    (b : Nat) (files : List DirEntry) (flyers : List Flyer)
    (hb : 1 ≤ b) (hrd : w.readDirRes = some files)
    (hout : BatchOutputs w.decode files imageFolder folderURL b flyers) :
    (mkMetadata folderURL w.now flyers).TotalFlyers
      = ((mkFlyersData flyers).Flyers.length : Int) := by
  rfl

/-- C1 witness: a concrete invocation over the fixture listing. -/
theorem C1_witness :
    (1 ≤ 2) ∧ (wW.readDirRes = some filesW) ∧
    (mkMetadata ("u") wW.now (BatchProcessFlyers fsW filesW ("images") ("u") 2)).TotalFlyers
      = ((mkFlyersData (BatchProcessFlyers fsW filesW ("images") ("u") 2)).Flyers.length : Int) :=
  ⟨by decide, rfl,
   C1_totalFlyers_matches_catalog wW ("images") ("u") 2 filesW _ (by decide) rfl
     (batchOutputs_canonical fsW filesW ("images") ("u") 2)⟩

/-- C2: for every successfully decoded image, the returned orientation is
`landscape` iff width > height, `portrait` otherwise; equal dimensions give
`portrait`. -/
theorem C2_orientation (fs : Decoder) (p : String) (w h : Int) (s : String)
    (hd : fs p = some (w, h, s)) :
    ∃ lbl ori, getImageResolutionAndOrientation fs p = some (w, h, lbl, ori) ∧
      (ori = ("landscape") ↔ w > h) ∧
      (ori = ("portrait") ↔ ¬ w > h) ∧
      (w = h → ori = ("portrait")) := by
  refine ⟨specFormatLabel p, if w > h then ("landscape") else ("portrait"), ?_, ?_, ?_, ?_⟩
  · simp [getImageResolutionAndOrientation, hd, specFormatLabel]
  · by_cases hlt : w > h <;> simp [hlt]
  · by_cases hlt : w > h <;> simp [hlt]
  · intro he
    subst he
    simp

/-- C2 witness: a square image is classified `portrait`. -/
theorem C2_witness :
    (fsW ("images/sq.png") = some (7, 7, ("png"))) ∧
    (∃ lbl ori, getImageResolutionAndOrientation fsW ("images/sq.png")
        = some (7, 7, lbl, ori) ∧
      (ori = ("landscape") ↔ (7 : Int) > 7) ∧
      (ori = ("portrait") ↔ ¬ (7 : Int) > 7) ∧
      ((7 : Int) = 7 → ori = ("portrait"))) :=
  ⟨rfl, C2_orientation fsW ("images/sq.png") 7 7 ("png") rfl⟩

/-- C3: for a fixed listing and any two batch sizes ≥ 1, every possible
`BatchProcess` result with the first size is a permutation (same length, same
multiset of entries) of every possible result with the second. -/
theorem C3_batchSize_invariance (fs : Decoder) (files : List DirEntry)
    (imageFolder folderURL : String) (b1 b2 : Nat) (out1 out2 : List Flyer)
    (hb1 : 1 ≤ b1) (hb2 : 1 ≤ b2)
    (h1 : BatchOutputs fs files imageFolder folderURL b1 out1)
    (h2 : BatchOutputs fs files imageFolder folderURL b2 out2) :
    List.Perm out1 out2 ∧ out1.length = out2.length := by
  have p1 := batchOutputs_perm fs files imageFolder folderURL hb1 h1
  have p2 := batchOutputs_perm fs files imageFolder folderURL hb2 h2
  exact ⟨p1.trans p2.symm, (p1.trans p2.symm).length_eq⟩

/-- C3 witness: batch sizes 1 and 2 on the fixture listing. -/
theorem C3_witness :
    (1 ≤ 1) ∧ (1 ≤ 2) ∧
    List.Perm (BatchProcessFlyers fsW filesW ("images") ("u") 1)
      (BatchProcessFlyers fsW filesW ("images") ("u") 2) ∧
    (BatchProcessFlyers fsW filesW ("images") ("u") 1).length
      = (BatchProcessFlyers fsW filesW ("images") ("u") 2).length :=
  ⟨by decide, by decide,
   (C3_batchSize_invariance fsW filesW ("images") ("u") 1 2 _ _ (by decide) (by decide)
     (batchOutputs_canonical fsW filesW ("images") ("u") 1)
     (batchOutputs_canonical fsW filesW ("images") ("u") 2)).1,
   (C3_batchSize_invariance fsW filesW ("images") ("u") 1 2 _ _ (by decide) (by decide)
     (batchOutputs_canonical fsW filesW ("images") ("u") 1)
     (batchOutputs_canonical fsW filesW ("images") ("u") 2)).2⟩

/-- C4: for every listing and batch size ≥ 1, the chunks are a contiguous
partition of the listing (joined back they give the listing, so every entry is
in exactly one chunk), every chunk but the last has exactly `batchSize`
entries, every chunk is nonempty of size ≤ `batchSize`, and the number of
spawned workers — one per chunk — is ⌈`files.length` / `batchSize`⌉. -/
theorem C4_chunk_partition (fs : Decoder) (imageFolder folderURL : String)
    (files : List DirEntry) (b : Nat) (hb : 1 ≤ b) :
    (goChunks b files).flatten = files ∧
    (goChunks b files).length = (files.length + b - 1) / b ∧
    (∀ c ∈ (goChunks b files).dropLast, c.length = b) ∧
    (∀ c ∈ goChunks b files, c.length ≤ b ∧ c ≠ []) ∧
    (workerOutputs fs files imageFolder folderURL b).length = (files.length + b - 1) / b := by
  obtain ⟨h1, h2, h3, h4⟩ := goChunks_spec hb files
  refine ⟨h1, h2, h3, h4, ?_⟩
  rw [workerOutputs, List.length_map, h2]

/-- C4 witness: five files in batches of two give three workers with chunk
sizes 2, 2, 1. -/
theorem C4_witness :
    (1 ≤ 2) ∧
    ((goChunks 2 filesW5).flatten = filesW5 ∧
     (goChunks 2 filesW5).length = (filesW5.length + 2 - 1) / 2 ∧
     (∀ c ∈ (goChunks 2 filesW5).dropLast, c.length = 2) ∧
     (∀ c ∈ goChunks 2 filesW5, c.length ≤ 2 ∧ c ≠ []) ∧
     (workerOutputs fsW filesW5 ("images") ("u") 2).length = (filesW5.length + 2 - 1) / 2) :=
  ⟨by decide, C4_chunk_partition fsW ("images") ("u") filesW5 2 (by decide)⟩

/-- C5: each worker handles its chunk sequentially — the results and logs for
`f :: rest` are those for `f` followed by those for `rest` (so a failure never
aborts the worker); a directory entry contributes nothing, silently; a file
whose open/decode fails contributes no entry and one log line; and every
emitted entry comes from a non-directory entry that decoded successfully. -/
theorem C5_worker_skip_and_continue (fs : Decoder) (imageFolder folderURL : String) :
    (∀ f rest, processBatch fs (f :: rest) imageFolder folderURL
        = ((processEntry fs imageFolder f).1 ++ (processBatch fs rest imageFolder folderURL).1,
           (processEntry fs imageFolder f).2 ++ (processBatch fs rest imageFolder folderURL).2)) ∧
    (∀ f, f.isDir = true → processEntry fs imageFolder f = ([], [])) ∧
    (∀ f, f.isDir = false → fs (filepathJoin imageFolder f.name) = none →
        processEntry fs imageFolder f = ([], [("Error processing image ") ++ f.name])) ∧
    (∀ files fl, fl ∈ (processBatch fs files imageFolder folderURL).1 →
        ∃ f ∈ files, f.isDir = false ∧
          ∃ w ht s, fs (filepathJoin imageFolder f.name) = some (w, ht, s)) := by
  refine ⟨?_, ?_, ?_, ?_⟩
  · intro f rest
    simp [processBatch]
  · intro f hf
    simp [processEntry, hf]
  · intro f hf hfs
    simp [processEntry, hf, getImageResolutionAndOrientation, hfs]
  · intro files fl hfl
    obtain ⟨f, hf, hdir, w, ht, lbl, ori, hres, _⟩ :=
      mem_processBatch fs imageFolder folderURL hfl
    obtain ⟨s, hs⟩ := getImage_some_decode hres
    exact ⟨f, hf, hdir, w, ht, s, hs⟩

/-- C5 witness: the fixture's subdirectory is skipped silently and its
undecodable file logs one line without emitting an entry. -/
theorem C5_witness :
    (processEntry fsW ("images") { name := ("sub"), isDir := true } = ([], [])) ∧
    (fsW (filepathJoin ("images") ("bad.txt")) = none) ∧
    (processEntry fsW ("images") { name := ("bad.txt"), isDir := false }
      = ([], [("Error processing image ") ++ ("bad.txt")])) :=
  ⟨(C5_worker_skip_and_continue fsW ("images") ("u")).2.1 _ rfl,
   by decide,
   (C5_worker_skip_and_continue fsW ("images") ("u")).2.2.1
     { name := ("bad.txt"), isDir := false } rfl (by decide)⟩

/-- C6: for every successfully decoded file, the reported format label is the
extension-derived label of the specification (leading dot removed, uppercased,
`JPG` rewritten to `JPEG`), independent of the content-sniffed codec and
dimensions: any two decoders that both succeed at the same path yield the same
label. -/
theorem C6_format_label_from_extension (fs fs2 : Decoder) (p : String)
    (w h w2 h2 : Int) (s s2 : String)
    (hd : fs p = some (w, h, s)) (hd2 : fs2 p = some (w2, h2, s2)) :
    ∃ ori ori2,
      getImageResolutionAndOrientation fs p = some (w, h, specFormatLabel p, ori) ∧
      getImageResolutionAndOrientation fs2 p = some (w2, h2, specFormatLabel p, ori2) := by
  refine ⟨if w > h then ("landscape") else ("portrait"),
    if w2 > h2 then ("landscape") else ("portrait"), ?_, ?_⟩
  · simp [getImageResolutionAndOrientation, hd, specFormatLabel]
  · simp [getImageResolutionAndOrientation, hd2, specFormatLabel]

/-- C6 witness: `images/a.jpg` holds PNG content (the sniffed codec is png)
yet reports the extension-derived label, which is `JPEG`. -/
theorem C6_witness :
    (fsW ("images/a.jpg") = some (4, 3, ("png"))) ∧
    (specFormatLabel ("images/a.jpg") = ("JPEG")) ∧
    (∃ ori ori2,
      getImageResolutionAndOrientation fsW ("images/a.jpg")
        = some (4, 3, specFormatLabel ("images/a.jpg"), ori) ∧
      getImageResolutionAndOrientation fsW ("images/a.jpg")
        = some (4, 3, specFormatLabel ("images/a.jpg"), ori2)) :=
  ⟨rfl, by decide,
   C6_format_label_from_extension fsW fsW ("images/a.jpg") 4 3 4 3 ("png") ("png") rfl rfl⟩

/-- C7: when the directory listing fails, `ReadAndForward` returns the
directory error immediately and performs no file write (neither `flyers.json`
nor `imagesMetadata.json`), whatever the other collaborators would do. -/
theorem C7_dir_listing_failure_is_fatal (w : World) (imageFolder folderURL : String)
    (b : Nat) (flyers : List Flyer) (h : w.readDirRes = none) :
    ReadAndForwardWith w imageFolder folderURL b flyers
      = (Except.error RFError.errReadDir, []) := by
  simp [ReadAndForwardWith, h]

/-- C7 witness: the failing-listing fixture world. -/
theorem C7_witness :
    (wBad.readDirRes = none) ∧
    ReadAndForwardWith wBad ("images") ("u") 10 []
      = (Except.error RFError.errReadDir, []) :=
  ⟨rfl, C7_dir_listing_failure_is_fatal wBad ("images") ("u") 10 [] rfl⟩

/-- C8: `folderURL` influences no entry — the canonical schedule and the whole
set of possible `BatchProcess` outcomes are identical for any two folder URLs —
every emitted entry's `url` is the slash-separated path of its file under the
image folder, and the folder URL is recorded in the summary's `url` field. -/
theorem C8_folderURL_not_in_entries (fs : Decoder) (files : List DirEntry)
    (imageFolder u1 u2 : String) (b : Nat) :
    (BatchProcessFlyers fs files imageFolder u1 b
      = BatchProcessFlyers fs files imageFolder u2 b) ∧
    (∀ out, BatchOutputs fs files imageFolder u1 b out ↔
        BatchOutputs fs files imageFolder u2 b out) ∧
    (1 ≤ b → ∀ out, BatchOutputs fs files imageFolder u1 b out → ∀ fl ∈ out,
        ∃ f ∈ files, f.isDir = false ∧ fl.URL = toSlash (filepathJoin imageFolder f.name)) ∧
    (∀ now flyers, (mkMetadata u1 now flyers).URL = u1) := by
  refine ⟨rfl, fun out => Iff.rfl, ?_, fun now flyers => rfl⟩
  intro hb out hout fl hfl
  have hperm := batchOutputs_perm fs files imageFolder u1 hb hout
  have hmem : fl ∈ (processBatch fs files imageFolder u1).1 := hperm.mem_iff.mp hfl
  obtain ⟨f, hf, hdir, w, ht, lbl, ori, hres, hflEq⟩ :=
    mem_processBatch fs imageFolder u1 hmem
  exact ⟨f, hf, hdir, by rw [hflEq]⟩

/-- C8 witness: two runs differing only in the folder URL coincide, and a
concrete emitted entry's url is its file path under the folder. -/
theorem C8_witness :
    (BatchProcessFlyers fsW filesW ("images") ("u1") 1
      = BatchProcessFlyers fsW filesW ("images") ("u2") 1) ∧
    (1 ≤ 1) ∧
    (∃ f ∈ filesW, f.isDir = false ∧ flW.URL = toSlash (filepathJoin ("images") f.name)) ∧
    (mkMetadata ("u1") ("t") []).URL = ("u1") :=
  ⟨(C8_folderURL_not_in_entries fsW filesW ("images") ("u1") ("u2") 1).1,
   by decide,
   (C8_folderURL_not_in_entries fsW filesW ("images") ("u1") ("u2") 1).2.2.1
     (by decide) _ (batchOutputs_canonical fsW filesW ("images") ("u1") 1) flW (by decide),
   (C8_folderURL_not_in_entries fsW filesW ("images") ("u1") ("u2") 1).2.2.2 ("t") []⟩

/-- C9: serializing an Entry (`Flyer`) or a Summary (`Metadata`) to JSON and
deserializing the result yields a value equal to the original. -/
theorem C9_json_roundtrip :
    (∀ f : Flyer, unmarshalFlyer (marshalFlyer f) = some f) ∧
    (∀ m : Metadata, unmarshalMetadata (marshalMetadata m) = some m) := by
  constructor
  · intro f
    obtain ⟨i, ⟨t, ⟨rw2, rh, ru⟩, ty, tags, ff, ori⟩, lg, u⟩ := f
    simp [marshalFlyer, unmarshalFlyer, marshalDesign, unmarshalDesign,
      marshalResolution, unmarshalResolution, jLookup, asStr, asInt, asStrList_map_str]
  · intro m
    obtain ⟨v, lu, tf, u, ⟨sf, se, st⟩⟩ := m
    simp [marshalMetadata, unmarshalMetadata, marshalSchema, unmarshalSchema,
      jLookup, asStr, asInt]

/-- C10: `BatchProcess` returns a nil error on every input, so the
"error processing files" branch of `ReadAndForward` is unreachable; once the
listing succeeds, the invocation can only fail at JSON encoding or at file
writing. -/
theorem C10_processing_error_unreachable (fs : Decoder) (files : List DirEntry)
    (imageFolder folderURL : String) (b : Nat) :
    (BatchProcessErr fs files imageFolder folderURL b = none) ∧
    (∀ w flyers, (ReadAndForwardWith w imageFolder folderURL b flyers).1
        ≠ Except.error RFError.errProcessing) ∧
    (∀ (w : World) files2 flyers e, w.readDirRes = some files2 →
        (ReadAndForwardWith w imageFolder folderURL b flyers).1 = Except.error e →
        e = RFError.errEncodeFlyers ∨ e = RFError.errEncodeMeta ∨
        e = RFError.errWriteFlyers ∨ e = RFError.errWriteMeta) := by
  refine ⟨rfl, ?_, ?_⟩
  · intro w flyers
    rcases hrd : w.readDirRes with _ | files2
    · simp [ReadAndForwardWith, hrd]
    · simp only [ReadAndForwardWith, hrd, BatchProcessErr]
      split_ifs <;> simp
  · intro w files2 flyers e hrd he
    simp only [ReadAndForwardWith, hrd, BatchProcessErr] at he
    split_ifs at he <;> simp_all

/-- C10 witness: a world whose first write fails produces a write error, one
of the two admissible failure stages. -/
theorem C10_witness :
    (wW.readDirRes = some filesW) ∧
    ((ReadAndForwardWith wW ("images") ("u") 10 []).1 = Except.error RFError.errWriteFlyers) ∧
    (RFError.errWriteFlyers = RFError.errEncodeFlyers ∨
     RFError.errWriteFlyers = RFError.errEncodeMeta ∨
     RFError.errWriteFlyers = RFError.errWriteFlyers ∨
     RFError.errWriteFlyers = RFError.errWriteMeta) :=
  ⟨rfl, rfl,
   (C10_processing_error_unreachable fsW filesW ("images") ("u") 10).2.2
     wW filesW [] RFError.errWriteFlyers rfl rfl⟩

end GoImg
